import Mathlib

/-!
Verification development for the CLAUDE.md validator script
(`scripts/validate-claude-md.py`).

The script is shallow-embedded over `List Char`: the document text is a
list of characters, the Python `str.split("\n")` becomes `splitLines`,
the Python substring test `in` becomes `hasSub` (decidable list-infix), and
the filesystem is an abstract existence predicate `fs : List Char → Bool`
passed to the functions that consult it.  Each Lean definition mirrors the
Python function of the same (snake-cased) name.
-/

namespace ClaudeMd

abbrev Chars := List Char

/-- Shorthand: characters of a string literal. -/
def str (s : String) : Chars := s.toList

/-- The backtick character (code 96), kept out of literals. -/
def tick : Char := Char.ofNat 96

/-- The single-quote character (code 39), kept out of literals. -/
def sq : Char := Char.ofNat 39

/-- Python `str.strip()` / regex `\s` whitespace set. -/
def isPySpace (c : Char) : Bool :=
  c == ' ' || c == '\t' || c == '\n' || c == '\r' || c == '\x0b' || c == '\x0c'

/-- Python `str.strip()`: drop whitespace from both ends. -/
def pyStrip (l : Chars) : Chars :=
  ((l.dropWhile isPySpace).reverse.dropWhile isPySpace).reverse

/-- Python `content.split("\n")`: always returns at least one line. -/
def splitLines : Chars → List Chars
  | [] => [[]]
  | c :: rest =>
    if c = '\n' then [] :: splitLines rest
    else
      match splitLines rest with
      | [] => [[c]]
      | l :: ls => (c :: l) :: ls

/-- Python `"\n".join(lines)`. -/
def joinLines (ls : List Chars) : Chars := List.intercalate ['\n'] ls

/-- Python substring test `pat in l`. -/
def hasSub (pat l : Chars) : Bool := decide (pat <:+: l)

/-- Python `str.lower()` (reg-ex `re.IGNORECASE` is modelled by lowering the
scanned line and searching lower-case pattern constants). -/
def lower (l : Chars) : Chars := l.map Char.toLower

/-- Decimal rendering of a number, for f-string interpolation. -/
def natChars (n : Nat) : Chars := (Nat.repr n).toList

/-- `ValidationIssue` from the script: category, level, message, location. -/
structure VIssue where
  category : Chars
  level : Chars
  message : Chars
  location : Chars
deriving DecidableEq, Repr

/-- The four document kinds of `detect_claude_type_from_content`. -/
inductive CType
  | global
  | project
  | local
  | rules
deriving DecidableEq, Repr

/-- `LINE_COUNT_TARGETS` table. -/
def lineCountTargets : CType → Nat × Nat
  | .global => (50, 150)
  | .project => (100, 300)
  | .local => (0, 50)
  | .rules => (20, 100)

/-- `REQUIRED_SECTIONS` table. -/
def requiredSections : CType → List Chars
  | .rules => [str "## Purpose"]
  | _ => []

/-! ## validate_frontmatter -/

def fmOpenErr : VIssue :=
  ⟨str "frontmatter", str "error",
   str "Missing opening YAML fence (---)", str "line 1"⟩

def fmCloseErr : VIssue :=
  ⟨str "frontmatter", str "error",
   str "Missing closing YAML fence (---)", str "frontmatter"⟩

def fmNameWarn : VIssue :=
  ⟨str "frontmatter", str "warning",
   str "Missing " ++ [sq] ++ str "name" ++ [sq] ++ str " field in frontmatter",
   str "frontmatter"⟩

def fmDescWarn : VIssue :=
  ⟨str "frontmatter", str "warning",
   str "Missing " ++ [sq] ++ str "description" ++ [sq] ++ str " field in frontmatter",
   str "frontmatter"⟩

def fmAngleWarn : VIssue :=
  ⟨str "frontmatter", str "warning",
   str "Angle brackets detected in frontmatter (use &lt; or &gt; instead)",
   str "frontmatter"⟩

/-- Index (0-based, within `lines.tail`) of the first line whose strip is
`---`; mirrors the `for i, line in enumerate(lines[1:], 1)` search. -/
def findCloseIdx : List Chars → Option Nat
  | [] => none
  | l :: rest =>
    if pyStrip l = str "---" then some 0
    else (findCloseIdx rest).map (· + 1)

/-- `validate_frontmatter(content, issues, require_frontmatter)`: returns the
issues it appends plus its boolean result.  Note the opening check is the
prefix test `content.startswith("---")`, exactly as in the source. -/
def validateFrontmatter (content : Chars) (requireFm : Bool) :
    List VIssue × Bool :=
  if !requireFm then ([], true)
  else if !((str "---").isPrefixOf content) then ([fmOpenErr], false)
  else
    let lines := splitLines content
    match findCloseIdx lines.tail with
    | none => ([fmCloseErr], false)
    | some j =>
      let fm := joinLines (lines.tail.take j)
      ((if hasSub (str "name:") fm then [] else [fmNameWarn]) ++
       (if hasSub (str "description:") fm then [] else [fmDescWarn]) ++
       (if fm.contains '<' || fm.contains '>' then [fmAngleWarn] else []),
       true)

/-! ## validate_structure -/

def noHeadWarn : VIssue :=
  ⟨str "structure", str "warning",
   str "No section headings (##) found", str "entire file"⟩

def missSectionWarn (s : Chars) : VIssue :=
  ⟨str "structure", str "warning",
   str "Missing required section: " ++ s, str "sections"⟩

/-- `validate_structure(content, claude_type, issues)`. -/
def validateStructure (content : Chars) (t : CType) : List VIssue :=
  let lines := splitLines content
  (if lines.any (fun l => (str "##").isPrefixOf l) then [] else [noHeadWarn]) ++
    (requiredSections t).filterMap
      (fun s => if hasSub s content then none else some (missSectionWarn s))

/-! ## validate_best_practices -/

/-- `line.strip().startswith("```")`. -/
def isFenceLine (l : Chars) : Bool := [tick, tick, tick].isPrefixOf (pyStrip l)

def lcWarn (n mn mx : Nat) : VIssue :=
  ⟨str "best_practices", str "warning",
   str "Line count: " ++ natChars n ++ str " (target: " ++ natChars mn ++
     str "-" ++ natChars mx ++
     str "). Consider using references/ for detailed content.",
   str "entire file"⟩

def bulletInfo (k : Nat) : VIssue :=
  ⟨str "best_practices", str "info",
   str "Found " ++ natChars k ++
     str " sections with bullet lists containing pipes - consider using Markdown tables instead",
   str "formatting"⟩

/-- A line collected into `current_section`: strip starts with `- ` and the
line contains a pipe. -/
def isBulletPipe (l : Chars) : Bool :=
  (str "- ").isPrefixOf (pyStrip l) && l.contains '|'

/-- The `bullet_sections` loop of `validate_best_practices`: collects runs of
three-or-more bullet-pipe lines.  As in the source, a run still open when the
line list ends is dropped (the loop has no final flush). -/
def bulletRuns (inC : Bool) (cur : List Chars) :
    List Chars → List (List Chars)
  | [] => []
  | l :: rest =>
    if isFenceLine l then bulletRuns (!inC) cur rest
    else if inC then bulletRuns inC cur rest
    else if isBulletPipe l then bulletRuns inC (cur ++ [l]) rest
    else if cur ≠ [] then
      (if cur.length ≥ 3 then [cur] else []) ++ bulletRuns inC [] rest
    else bulletRuns inC cur rest

/-- `validate_best_practices(content, claude_type, issues)`. -/
def validateBestPractices (content : Chars) (t : CType) : List VIssue :=
  let lines := splitLines content
  let n := lines.length
  let mn := (lineCountTargets t).1
  let mx := (lineCountTargets t).2
  (if n > mx then [lcWarn n mn mx] else []) ++
    (let runs := bulletRuns false [] lines
     if runs ≠ [] then [bulletInfo runs.length] else [])

/-! ## validate_content -/

/-- reg-ex `\w` (ASCII fragment). -/
def wordChar (c : Char) : Bool := c.isAlphanum || c == '_'

/-- reg-ex class `[\w\-]`. -/
def segChar (c : Char) : Bool := wordChar c || c == '-'

/-- reg-ex class `[\w\-./]`. -/
def bodyChar (c : Char) : Bool :=
  wordChar c || c == '-' || c == '.' || c == '/'

/-- One iteration of the group `(?:\./|\.\./|[\w\-]+/)`: possible suffixes
after consuming one alternative, in the preference order of the reg-ex engine.
(`[\w\-]+/` admits only the maximal run, since `/` is not a `[\w\-]` char.) -/
def segStep (cs : Chars) : List Chars :=
  (match cs with | '.' :: '/' :: r => [r] | _ => []) ++
    (match cs with | '.' :: '.' :: '/' :: r => [r] | _ => []) ++
    (let run := cs.takeWhile segChar
     if run.length ≥ 1 then
       match cs.drop run.length with
       | '/' :: r => [r]
       | _ => []
     else [])

/-- `(?:\./|\.\./|[\w\-]+/)+`: suffixes after one-or-more iterations, greedy
(more iterations preferred).  Fuelled; each iteration consumes ≥ 2 chars. -/
def segsPlus : Nat → Chars → List Chars
  | 0, _ => []
  | fuel + 1, cs =>
    (segStep cs).flatMap (fun r => segsPlus fuel r ++ [r])

/-- `[\w\-./]+` greedy: suffixes longest-match-first. -/
def takeBody (cs : Chars) : List Chars :=
  let m := (cs.takeWhile bodyChar).length
  (List.range m).map (fun k => cs.drop (m - k))

/-- `(?:\.\w+)?` greedy: matching the group is preferred to skipping it. -/
def extOpt (cs : Chars) : List Chars :=
  (match cs with
   | '.' :: r =>
     let m := (r.takeWhile wordChar).length
     (List.range m).map (fun k => r.drop (m - k))
   | _ => []) ++ [cs]

/-- All suffixes reachable by the body of the path pattern
`(?:\./|\.\./|[\w\-]+/)+[\w\-./]+(?:\.\w+)?`, in backtracking order. -/
def spanEnds (cs : Chars) : List Chars :=
  (segsPlus cs.length cs).flatMap fun r1 =>
    (takeBody r1).flatMap fun r2 => extOpt r2

/-- Match the path pattern right after an opening backtick: returns the span
text (between the backticks) and the rest after the closing backtick. -/
def matchTick (cs : Chars) : Option (Chars × Chars) :=
  match (spanEnds cs).find? (fun r => r.take 1 = [tick]) with
  | some r => some (cs.take (cs.length - r.length), r.tail)
  | none => none

/-- `re.finditer(path_pattern, prose_text)`: the backtick-delimited path-like
spans, left to right, non-overlapping. -/
def findSpans : Nat → Chars → List Chars
  | 0, _ => []
  | _, [] => []
  | fuel + 1, c :: rest =>
    if c = tick then
      match matchTick rest with
      | some (content, after) => content :: findSpans fuel after
      | none => findSpans fuel rest
    else findSpans fuel rest

/-- The prose partition of `validate_content`: drops code-block lines and
table runs (a table ends only at a blank line). -/
def proseLines (inC inT : Bool) : List Chars → List Chars
  | [] => []
  | l :: rest =>
    if isFenceLine l then proseLines (!inC) inT rest
    else if inC then proseLines inC inT rest
    else if l.contains '|' && (str "|").isPrefixOf (pyStrip l) then
      proseLines inC true rest
    else if inT && pyStrip l = [] then proseLines inC false rest
    else if inT then proseLines inC inT rest
    else l :: proseLines inC inT rest

/-- `skip_patterns` of `validate_content`, in source order. -/
def skipPatterns : List Chars :=
  [str "http://", str "https://", str "://",
   str "npm run", str "pip install", str "cargo run", str "go run",
   str "pytest", str "npm test", str "npx", str "uvicorn",
   str "anchor", str "solana", str "git ",
   str "mcp__", str "__",
   str "else", str "if ", str "for ", str "while ", str "return"]

/-- Characters atypical of file paths (the second skip test). -/
def badChars : List Char :=
  ['(', ')', Char.ofNat 123, Char.ofNat 125, '<', '>', Char.ofNat 34, sq]

/-- Candidate base directories tried for existence. -/
def baseDirs : List Chars :=
  [str ".", str "./frontend", str "./gateway", str "./programs",
   str "./agents"]

/-- `Path(base_dir) / path_ref` rendered as a string (pathlib drops a
leading `./`). -/
def joinBase (b p : Chars) : Chars :=
  if b = str "." then p
  else (if (str "./").isPrefixOf b then b.drop 2 else b) ++ '/' :: p

def mkPathIssue (p : Chars) : VIssue :=
  ⟨str "content", str "info",
   str "Referenced path does not exist: " ++ p, str "references"⟩

/-- The per-candidate body of the `re.finditer` loop in `validate_content`:
skip-pattern filter, path-character filter, existence checks, shallow-path
filter; `fs` is the filesystem existence oracle. -/
def processCand (fs : Chars → Bool) (p : Chars) : Option VIssue :=
  if skipPatterns.any (fun pat => hasSub pat (lower p)) then none
  else if badChars.any (fun c => p.contains c) then none
  else if fs p then none
  else if baseDirs.any (fun b => fs (joinBase b p)) then none
  else if p.count '/' < 3 then some (mkPathIssue p) else none

/-- `validate_content(content, issues)`. -/
def validateContent (fs : Chars → Bool) (content : Chars) : List VIssue :=
  let prose := joinLines (proseLines false false (splitLines content))
  (findSpans prose.length prose).filterMap (processCand fs)

/-! ## validate_dynamic_content

The six `dynamic_patterns` reg-exes are embedded as direct scanning
functions over the lower-cased line (`re.IGNORECASE`). -/

/-- reg-ex `\s*` (greedy whitespace skip). -/
def skipWs (cs : Chars) : Chars := cs.dropWhile isPySpace

/-- After a `|`: `\s*(w₁|…|wₙ)\s*\|` for a word alternation. -/
def afterPipeKw (words : List Chars) (cs : Chars) : Bool :=
  let r := skipWs cs
  words.any fun w =>
    w.isPrefixOf r && (skipWs (r.drop w.length)).take 1 = ['|']

/-- Search for `\|\s*(w₁|…|wₙ)\s*\|` anywhere in the line. -/
def scanPipeKw (words : List Chars) : Chars → Bool
  | [] => false
  | c :: rest =>
    (c == '|' && afterPipeKw words rest) || scanPipeKw words rest

/-- reg-ex `\|\s*status\s*\|`. -/
def p1 (cs : Chars) : Bool := scanPipeKw [str "status"] cs

/-- reg-ex `\|\s*(pending|done|complete|in_progress|blocked)\s*\|`. -/
def p2 (cs : Chars) : Bool :=
  scanPipeKw
    [str "pending", str "done", str "complete", str "in_progress",
     str "blocked"] cs

/-- After `##`: `\s*(implementation|feature|phase).*status`. -/
def checkHeadStatus (cs : Chars) : Bool :=
  let r := skipWs cs
  [str "implementation", str "feature", str "phase"].any fun w =>
    w.isPrefixOf r && hasSub (str "status") (r.drop w.length)

/-- reg-ex `##\s*(implementation|feature|phase).*status`. -/
def p3 : Chars → Bool
  | [] => false
  | c :: rest =>
    (c == '#' && (match rest with
                  | '#' :: r2 => checkHeadStatus r2
                  | _ => false)) || p3 rest

/-- The `\[x\]` alternative after an opening `[`. -/
def xCloseBr : Chars → Bool
  | c1 :: c2 :: _ => c1 == 'x' && c2 == ']'
  | _ => false

/-- The `\[\s*\]` alternative after an opening `[`. -/
def wsCloseBr : Chars → Bool
  | [] => false
  | c :: rest =>
    if c == ']' then true
    else if isPySpace c then wsCloseBr rest
    else false

/-- reg-ex `\[x\]|\[\s*\]`. -/
def p4 : Chars → Bool
  | [] => false
  | c :: rest => (c == '[' && (xCloseBr rest || wsCloseBr rest)) || p4 rest

/-- reg-ex `TO-DO:|TODO:|FIXME:` (lower-cased). -/
def p5 (cs : Chars) : Bool :=
  hasSub (str "to-do:") cs || hasSub (str "todo:") cs ||
    hasSub (str "fixme:") cs

/-- After the digits of `phase\s+\d+`: `.*:\s*(pending|done|complete)`. -/
def colonKw : Chars → Bool
  | [] => false
  | c :: rest =>
    (c == ':' &&
      [str "pending", str "done", str "complete"].any
        (fun w => w.isPrefixOf (skipWs rest))) || colonKw rest

/-- After the literal `phase`: `\s+\d+.*:\s*(pending|done|complete)`. -/
def afterPhase : Chars → Bool
  | [] => false
  | c :: rest =>
    isPySpace c &&
      (match skipWs rest with
       | d :: r2 => d.isDigit && colonKw r2
       | [] => false)

/-- reg-ex `phase\s+\d+.*:\s*(pending|done|complete)`. -/
def p6 : Chars → Bool
  | [] => false
  | c :: rest =>
    ((str "phase").isPrefixOf (c :: rest) &&
      afterPhase ((c :: rest).drop 5)) || p6 rest

def dynMsg1 : Chars :=
  str "Table has " ++ [sq] ++ str "Status" ++ [sq] ++
    str " column - dynamic data belongs in feature-list.json"

def dynMsg2 : Chars := str "Table contains status values - move to progress files"

def dynMsg3 : Chars := str "Section title suggests status tracking"

def dynMsg4 : Chars := str "Task checkboxes - use task tracker instead"

def dynMsg5 : Chars := str "Inline todos - use task tracker instead"

def dynMsg6 : Chars := str "Phase status tracking - move to progress files"

/-- The `for pattern, message in dynamic_patterns` loop with its `break`:
the message of the first matching pattern, if any. -/
def firstDynMatch (line : Chars) : Option Chars :=
  let lc := lower line
  if p1 lc then some dynMsg1
  else if p2 lc then some dynMsg2
  else if p3 lc then some dynMsg3
  else if p4 lc then some dynMsg4
  else if p5 lc then some dynMsg5
  else if p6 lc then some dynMsg6
  else none

def mkDynIssue (i : Nat) (m : Chars) : VIssue :=
  ⟨str "content", str "warning",
   str "Dynamic content detected: " ++ m, str "line " ++ natChars i⟩

/-- The line loop of `validate_dynamic_content`: `i` is the 1-based line
number; the `in_code` flag starts effectively false and toggles on fence
lines (the `locals()` idiom of the source). -/
def dynGo (inC : Bool) (i : Nat) : List Chars → List VIssue
  | [] => []
  | l :: rest =>
    if isFenceLine l then dynGo (!inC) (i + 1) rest
    else if inC then dynGo inC (i + 1) rest
    else
      match firstDynMatch l with
      | some m => mkDynIssue i m :: dynGo inC (i + 1) rest
      | none => dynGo inC (i + 1) rest

/-- `validate_dynamic_content(content, issues)`. -/
def validateDynamicContent (content : Chars) : List VIssue :=
  dynGo false 1 (splitLines content)

/-! ## detect_claude_type_from_content and validate_file -/

/-- `Path.home() / ".claude" / "CLAUDE.md"` as a string. -/
def globalPath (home : Chars) : Chars := home ++ str "/.claude/CLAUDE.md"

/-- `Path(p).name`: last component (pathlib ignores trailing slashes). -/
def baseName (p : Chars) : Chars :=
  ((p.reverse.dropWhile (· == '/')).takeWhile (· != '/')).reverse

/-- `detect_claude_type_from_content(content, file_path)` (the content
argument is unused in the source). -/
def detectClaudeType (home p : Chars) : CType :=
  if p = globalPath home then .global
  else if hasSub (str ".claude/rules") p then .rules
  else if baseName p = str "CLAUDE.local.md" then .local
  else .project

/-- The aggregated result dict of `validate_file`. -/
structure VResult where
  valid : Bool
  ctype : Option CType
  errors : Nat
  warnings : Nat
  infos : Nat
  issues : List VIssue
deriving DecidableEq, Repr

def notFoundIssue (p : Chars) : VIssue :=
  ⟨str "file", str "error", str "File not found: " ++ p, str "filesystem"⟩

/-- The result built in the `not path.exists()` branch (no `type` field). -/
def notFoundResult (p : Chars) : VResult :=
  ⟨false, none, 1, 0, 0, [notFoundIssue p]⟩

def countLevel (lvl : Chars) (issues : List VIssue) : Nat :=
  issues.countP (fun i => i.level == lvl)

/-- The five validator calls of `validate_file`, appending to one shared
issue list in source order. -/
def allIssues (fs : Chars → Bool) (home p content : Chars) : List VIssue :=
  let t := detectClaudeType home p
  let requireFm := hasSub (str "skills") p || baseName p = str "SKILL.md"
  (validateFrontmatter content requireFm).1 ++
    validateStructure content t ++
    validateBestPractices content t ++
    validateContent fs content ++
    validateDynamicContent content

/-- `validate_file(file_path, json_output)`: returns the result and the exit
code.  `pathExists` models `path.exists()`; `readResult` models
`path.read_text()` (`none` = the read raises).  The read is performed
outside any exception handler in the source, so a failing read yields no
result at all (`none`). -/
def validateFile (fs : Chars → Bool) (home p : Chars) (pathExists : Bool)
    (readResult : Option Chars) : Option (VResult × Nat) :=
  if !pathExists then some (notFoundResult p, 2)
  else
    match readResult with
    | none => none
    | some content =>
      let issues := allIssues fs home p content
      let errors := countLevel (str "error") issues
      let warnings := countLevel (str "warning") issues
      let infos := countLevel (str "info") issues
      some (⟨errors == 0, some (detectClaudeType home p), errors, warnings,
             infos, issues⟩,
            if errors == 0 then 0 else if errors > 0 then 2 else 1)

/-- The code-block flag after scanning a list of lines (used to state where
in a document a given line sits). -/
def fenceParity (b : Bool) (ls : List Chars) : Bool :=
  ls.foldl (fun s l => if isFenceLine l then !s else s) b

/-! ## Theorems -/

/-- Helper: the level counts of the file-not-found result. -/
lemma countLevel_notFound (p : Chars) :
    countLevel (str "error") [notFoundIssue p] = 1 := by
  simp [countLevel, notFoundIssue]

/-- C1: for every validation run that produces a result, the field
`valid` equals `error_count == 0`, and `error_count` is exactly the
number of error-level issues in the issue sequence, so warnings and info
never affect validity. -/
theorem C1_valid_iff_no_errors (fs : Chars → Bool) (home p : Chars)
    (ex : Bool) (rd : Option Chars) (r : VResult) (code : Nat)
    (h : validateFile fs home p ex rd = some (r, code)) :
    r.valid = (countLevel (str "error") r.issues == 0) ∧
    r.errors = countLevel (str "error") r.issues := by
  cases ex with
  | false =>
    simp only [validateFile, Bool.not_false, if_pos, Option.some.injEq,
      Prod.mk.injEq] at h
    obtain ⟨hr, -⟩ := h
    subst hr
    simp [notFoundResult, countLevel_notFound]
  | true =>
    cases rd with
    | none => simp [validateFile] at h
    | some content =>
      simp only [validateFile, Bool.not_true, Bool.false_eq_true, if_false,
        Option.some.injEq, Prod.mk.injEq] at h
      obtain ⟨hr, -⟩ := h
      subst hr
      constructor <;> rfl

/-- Witness for C1 at a concrete run. -/
theorem C1_valid_iff_no_errors_witness :
    (VResult.valid
        ⟨true, some CType.project, 0, 1, 0, [noHeadWarn]⟩) =
      (countLevel (str "error")
        (VResult.issues ⟨true, some CType.project, 0, 1, 0, [noHeadWarn]⟩)
          == 0) ∧
    (VResult.errors ⟨true, some CType.project, 0, 1, 0, [noHeadWarn]⟩) =
      countLevel (str "error")
        (VResult.issues ⟨true, some CType.project, 0, 1, 0, [noHeadWarn]⟩) :=
  C1_valid_iff_no_errors (fun _ => false) (str "/h") (str "/p/CLAUDE.md")
    true (some (str "hi"))
    ⟨true, some CType.project, 0, 1, 0, [noHeadWarn]⟩ 0 (by decide)

/-- C2: a nonexistent target yields exactly the file-not-found result
(valid=false, one file-category error issue with message
`File not found: <path>`, zero warnings, zero info, no type field) and exit
status 2; an existing, readable target yields exit status 0 when the error
count is 0 and 2 otherwise, so warnings/info alone never produce a nonzero
exit and exit code 1 is never produced. -/
theorem C2_exit_code_contract (fs : Chars → Bool) (home p : Chars)
    (ex : Bool) (rd : Option Chars) :
    (ex = false →
      validateFile fs home p ex rd = some (notFoundResult p, 2) ∧
      notFoundResult p =
        ⟨false, none, 1, 0, 0,
         [⟨str "file", str "error", str "File not found: " ++ p,
           str "filesystem"⟩]⟩) ∧
    (∀ r code, validateFile fs home p ex rd = some (r, code) →
      (ex = true → code = if r.errors = 0 then 0 else 2) ∧ code ≠ 1) := by
  refine ⟨fun hex => ?_, fun r code h => ?_⟩
  · subst hex
    exact ⟨by simp [validateFile], rfl⟩
  · cases ex with
    | false =>
      simp only [validateFile, Bool.not_false, if_pos, Option.some.injEq,
        Prod.mk.injEq] at h
      obtain ⟨-, hc⟩ := h
      exact ⟨fun hx => by simp at hx, by omega⟩
    | true =>
      cases rd with
      | none => simp [validateFile] at h
      | some content =>
        simp only [validateFile, Bool.not_true, Bool.false_eq_true, if_false,
          Option.some.injEq, Prod.mk.injEq] at h
        obtain ⟨hr, hc⟩ := h
        subst hr
        refine ⟨fun _ => ?_, ?_⟩
        · rw [← hc]
          by_cases he :
              countLevel (str "error") (allIssues fs home p content) = 0 <;>
            simp [he]
        · rw [← hc]
          by_cases he :
              countLevel (str "error") (allIssues fs home p content) = 0 <;>
            simp [he]

/-- Witness for C2 at concrete runs (a missing path, and an existing one). -/
theorem C2_exit_code_contract_witness :
    (validateFile (fun _ => false) (str "/h") (str "/missing") false none =
        some (notFoundResult (str "/missing"), 2) ∧
      notFoundResult (str "/missing") =
        ⟨false, none, 1, 0, 0,
         [⟨str "file", str "error",
           str "File not found: " ++ str "/missing", str "filesystem"⟩]⟩) ∧
    ((2 : Nat) ≠ 1) := by
  have h := C2_exit_code_contract (fun _ => false) (str "/h")
    (str "/missing") false none
  exact ⟨h.1 rfl,
    (h.2 (notFoundResult (str "/missing")) 2 ((h.1 rfl).1)).2⟩

/-- C3 counterexample: a path that exists but whose read fails
(`read_text` raising) yields no Validation Result at all — the fault
escapes `validate_file` uncaught, contradicting the claim that every such
run still yields a well-formed result. -/
theorem C3_counterexample :
    validateFile (fun _ => false) (str "/h") (str "/p/CLAUDE.md") true none
      = none := rfl

/-- C3 (amended): only the nonexistent-path fault is converted into the
access-failure result (synthetic error issue, exit 2); a successful read
always yields a well-formed result, but a run for a path that exists and
whose read fails yields no Validation Result — the read is performed
outside any exception handler. -/
theorem C3_read_fault_handling (fs : Chars → Bool) (home p : Chars) :
    (∀ rd, validateFile fs home p false rd = some (notFoundResult p, 2)) ∧
    validateFile fs home p true none = none ∧
    (∀ content, ∃ r code,
      validateFile fs home p true (some content) = some (r, code)) := by
  refine ⟨fun rd => by simp [validateFile], rfl, fun content => ?_⟩
  exact ⟨_, _, rfl⟩

/-- C4 counterexample: a required-frontmatter document whose first line is
`----` (likewise `--- x`) does NOT trigger the missing-opening-delimiter
error — the source only tests the three-character prefix
`content.startswith("---")` — so the claim that such documents must emit
that error is false. -/
theorem C4_counterexample :
    validateFrontmatter (str "----") true = ([fmCloseErr], false) ∧
    fmOpenErr ∉ (validateFrontmatter (str "----") true).1 ∧
    validateFrontmatter (str "--- x") true = ([fmCloseErr], false) ∧
    fmOpenErr ∉ (validateFrontmatter (str "--- x") true).1 := by
  refine ⟨by decide, by decide, by decide, by decide⟩

/-- C4 (amended): the frontmatter validator emits exactly one error-level
issue ("missing opening delimiter") and performs no further frontmatter
checks iff the document does not start with the three-character prefix
`---`; a document whose first line is `----` or `--- x` passes the prefix
test and does not trigger this error. -/
theorem C4_opening_delimiter (content : Chars) :
    ((str "---").isPrefixOf content = false →
      validateFrontmatter content true = ([fmOpenErr], false)) ∧
    ((str "---").isPrefixOf content = true →
      fmOpenErr ∉ (validateFrontmatter content true).1) := by
  constructor
  · intro h
    simp [validateFrontmatter, h]
  · intro h
    simp only [validateFrontmatter, Bool.not_true, Bool.false_eq_true,
      if_false, h]
    cases hf : findCloseIdx (splitLines content).tail with
    | none => simp; decide
    | some j =>
      simp only []
      intro hmem
      rw [List.mem_append, List.mem_append] at hmem
      rcases hmem with (hm | hm) | hm
      · revert hm; split
        · simp
        · simp; decide
      · revert hm; split
        · simp
        · simp; decide
      · revert hm; split
        · simp; decide
        · simp

/-- Witness for C4 (amended) at concrete documents. -/
theorem C4_opening_delimiter_witness :
    validateFrontmatter (str "x") true = ([fmOpenErr], false) ∧
    fmOpenErr ∉ (validateFrontmatter (str "----") true).1 :=
  ⟨(C4_opening_delimiter (str "x")).1 (by decide),
   (C4_opening_delimiter (str "----")).2 (by decide)⟩

/-- C5 counterexample: a document whose only heading-like line is `### foo`
receives NO "no section headings" warning — the source counts lines that
start with the two-character prefix `##`, so `###` lines count as headings —
contradicting the claim that such a document must receive the warning. -/
theorem C5_counterexample :
    validateStructure (str "### foo") CType.project = [] ∧
    noHeadWarn ∉ validateStructure (str "### foo") CType.project := by
  refine ⟨by decide, by decide⟩

/-- C5 (amended): the structural validator counts the lines that start with
the two-character prefix `##` (so `###` and `##x` lines count as headings)
and emits the "no section headings" warning iff that count is zero. -/
theorem C5_no_heading_warning (content : Chars) (t : CType) :
    noHeadWarn ∈ validateStructure content t ↔
      (splitLines content).any (fun l => (str "##").isPrefixOf l) = false := by
  unfold validateStructure
  cases ha : (splitLines content).any (fun l => (str "##").isPrefixOf l) with
  | true =>
    simp only [if_pos, List.nil_append, ha]
    constructor
    · intro h
      exfalso
      rcases List.mem_filterMap.mp h with ⟨s, -, he⟩
      revert he
      split
      · simp
      · intro he
        have hl : str "sections" = str "entire file" :=
          congrArg VIssue.location (Option.some.inj he)
        exact absurd hl (by decide)
    · intro h; simp at h
  | false =>
    simp [ha]

/-- C6: classification is total and deterministic — every path maps to one
of the four kinds — and, in the claimed priority order, any path under the
`.claude/rules` directory that is not the global memory file classifies as
`rules` regardless of its filename; the global location goes to `global`,
and a `CLAUDE.local.md` filename only matters when neither applies. -/
theorem C6_classification (home p : Chars) :
    (detectClaudeType home p ∈
      [CType.global, CType.project, CType.local, CType.rules]) ∧
    (p = globalPath home → detectClaudeType home p = CType.global) ∧
    (p ≠ globalPath home → hasSub (str ".claude/rules") p = true →
      detectClaudeType home p = CType.rules) ∧
    (p ≠ globalPath home → hasSub (str ".claude/rules") p = false →
      baseName p = str "CLAUDE.local.md" →
      detectClaudeType home p = CType.local) ∧
    (p ≠ globalPath home → hasSub (str ".claude/rules") p = false →
      baseName p ≠ str "CLAUDE.local.md" →
      detectClaudeType home p = CType.project) := by
  refine ⟨?_, ?_, ?_, ?_, ?_⟩
  · cases h : detectClaudeType home p <;> simp
  · intro h; simp [detectClaudeType, h]
  · intro h1 h2; simp [detectClaudeType, h1, h2]
  · intro h1 h2 h3; simp [detectClaudeType, h1, h2, h3]
  · intro h1 h2 h3; simp [detectClaudeType, h1, h2, h3]

/-- Witness for C6: a path under `.claude/rules` with a local-override
filename still classifies as `rules`. -/
theorem C6_classification_witness :
    detectClaudeType (str "/home/u") (str "/x/.claude/rules/CLAUDE.local.md")
      = CType.rules :=
  (C6_classification (str "/home/u")
    (str "/x/.claude/rules/CLAUDE.local.md")).2.2.1 (by decide) (by decide)

/-- C7: evaluation of the defect — a document that is exactly a run of three
bullet-pipe lines ending at the last line yields NO best-practices issue
(the loop never flushes the final `current_section`), while the same run
followed by one more line is reported as one finding. -/
theorem C7_trailing_run_dropped :
    validateBestPractices (str "- a|\n- b|\n- c|") CType.project = [] ∧
    validateBestPractices (str "- a|\n- b|\n- c|\nx") CType.project =
      [bulletInfo 1] := by
  constructor <;> decide

/-- Helper for C10: if no line strips to `---`, the closing-fence search
fails. -/
lemma findCloseIdx_eq_none (ls : List Chars)
    (h : ∀ l ∈ ls, pyStrip l ≠ str "---") : findCloseIdx ls = none := by
  induction ls with
  | nil => rfl
  | cons l rest ih =>
    have h1 : pyStrip l ≠ str "---" := h l (List.mem_cons_self l rest)
    simp only [findCloseIdx, if_neg h1]
    rw [ih fun x hx => h x (List.mem_cons_of_mem l hx)]
    rfl

/-- C10: the closing-fence search starts strictly after the first line, so a
required-frontmatter document that starts with `---` but has no later line
stripping to `---` (for example the single line `---`) emits exactly the
"Missing closing YAML fence" error and no name/description/angle-bracket
issues. -/
theorem C10_closing_fence_search (content : Chars)
    (hopen : (str "---").isPrefixOf content = true)
    (hrest : ∀ l ∈ (splitLines content).tail, pyStrip l ≠ str "---") :
    validateFrontmatter content true = ([fmCloseErr], false) := by
  simp only [validateFrontmatter, Bool.not_true, Bool.false_eq_true, if_false,
    hopen, findCloseIdx_eq_none _ hrest]

/-- Witness for C10: the document whose entire content is `---`. -/
theorem C10_closing_fence_search_witness :
    validateFrontmatter (str "---") true = ([fmCloseErr], false) :=
  C10_closing_fence_search (str "---") (by decide) (by decide)

/-- Helper for C8: the dynamic-content scan distributes over append, with
the code-block flag and line number carried across. -/
lemma dynGo_append (xs : List Chars) (ys : List Chars) (b : Bool) (i : Nat) :
    dynGo b i (xs ++ ys) =
      dynGo b i xs ++ dynGo (fenceParity b xs) (i + xs.length) ys := by
  induction xs generalizing b i with
  | nil => simp [dynGo, fenceParity]
  | cons l rest ih =>
    have hpar : ∀ b' : Bool, fenceParity b' (l :: rest) =
        fenceParity (if isFenceLine l then !b' else b') rest := by
      intro b'
      simp [fenceParity, List.foldl_cons]
    have harith : i + 1 + rest.length = i + (rest.length + 1) := by omega
    by_cases hf : isFenceLine l
    · simp [dynGo, hf, hpar, ih, harith]
    · by_cases hb : b
      · simp [dynGo, hf, hb, hpar, ih, harith]
      · cases hm : firstDynMatch l with
        | some m => simp [dynGo, hf, hb, hm, hpar, ih, harith]
        | none => simp [dynGo, hf, hb, hm, hpar, ih, harith]

/-- Helper for C8: each line contributes at most one issue to the
dynamic-content scan. -/
lemma dynGo_length_le : ∀ (b : Bool) (i : Nat) (ls : List Chars),
    (dynGo b i ls).length ≤ ls.length
  | b, i, [] => Nat.le_refl 0
  | b, i, l :: rest => by
    simp only [dynGo, List.length_cons]
    by_cases hf : isFenceLine l
    · simp only [hf, if_true]
      exact Nat.le_succ_of_le (dynGo_length_le (!b) (i + 1) rest)
    · simp only [hf, Bool.false_eq_true, if_false]
      cases b with
      | true =>
        simpa using Nat.le_succ_of_le (dynGo_length_le true (i + 1) rest)
      | false =>
        cases hm : firstDynMatch l with
        | some m =>
          simpa [hm] using
            Nat.succ_le_succ (dynGo_length_le false (i + 1) rest)
        | none =>
          simpa [hm] using
            Nat.le_succ_of_le (dynGo_length_le false (i + 1) rest)

/-- Helper for C8: `p4` is monotone under prepending characters. -/
lemma p4_append_of_p4 (s t : Chars) (h : p4 t = true) : p4 (s ++ t) = true := by
  induction s with
  | nil => simpa
  | cons c cs ih => simp [p4, ih]

/-- Helper for C8: the `\[\s*\]` alternative fires on a literal `[ ]`. -/
lemma p4_checkbox_space (t : Chars) : p4 ('[' :: ' ' :: ']' :: t) = true := by
  simp [p4, xCloseBr, wsCloseBr, isPySpace]

/-- Helper for C8: the `\[x\]` alternative fires on a literal `[x]`. -/
lemma p4_checkbox_x (t : Chars) : p4 ('[' :: 'x' :: ']' :: t) = true := by
  simp [p4, xCloseBr]

/-- Helper for C8: `p4` fires on any list with a `[ ]` infix. -/
lemma p4_of_infix_space (cs : Chars) (h : (str "[ ]") <:+: cs) :
    p4 cs = true := by
  obtain ⟨s, t, hst⟩ := h
  subst hst
  rw [List.append_assoc]
  exact p4_append_of_p4 _ _ (p4_checkbox_space t)

/-- Helper for C8: `p4` fires on any list with a `[x]` infix. -/
lemma p4_of_infix_x (cs : Chars) (h : (str "[x]") <:+: cs) :
    p4 cs = true := by
  obtain ⟨s, t, hst⟩ := h
  subst hst
  rw [List.append_assoc]
  exact p4_append_of_p4 _ _ (p4_checkbox_x t)

/-- Helper for C8: a line containing a literal checkbox marker satisfies the
checkbox pattern after lower-casing. -/
lemma p4_of_checkbox (l : Chars)
    (h : (str "[ ]") <:+: l ∨ (str "[x]") <:+: l) :
    p4 (lower l) = true := by
  rcases h with h | h
  · refine p4_of_infix_space _ ?_
    have hmapped := List.IsInfix.map Char.toLower h
    rw [show List.map Char.toLower (str "[ ]") = str "[ ]" from by decide]
      at hmapped
    exact hmapped
  · refine p4_of_infix_x _ ?_
    have hmapped := List.IsInfix.map Char.toLower h
    rw [show List.map Char.toLower (str "[x]") = str "[x]" from by decide]
      at hmapped
    exact hmapped

/-- Helper for C8: when the checkbox pattern matches, some dynamic pattern
fires, so the first-match loop yields a message. -/
lemma firstDynMatch_isSome_of_p4 (l : Chars) (h : p4 (lower l) = true) :
    ∃ m, firstDynMatch l = some m := by
  unfold firstDynMatch
  dsimp only
  split_ifs <;> exact ⟨_, rfl⟩

/-- C8: a line containing a literal checkbox marker (`[ ]` or `[x]`),
sitting outside a fenced code block (and itself not a fence line), makes the
dynamic-content detector emit exactly one content-category warning for that
line, whose location names the 1-based number of that line; the same line inside a
fenced code block contributes no issue; and the detector emits at most one
issue per line in general. -/
theorem C8_checkbox_detection (content : Chars) (pre : List Chars)
    (line : Chars) (post : List Chars)
    (hsplit : splitLines content = pre ++ line :: post)
    (hfence : isFenceLine line = false)
    (hbox : (str "[ ]") <:+: line ∨ (str "[x]") <:+: line) :
    (fenceParity false pre = false →
      ∃ m, validateDynamicContent content =
        dynGo false 1 pre ++
          ⟨str "content", str "warning",
           str "Dynamic content detected: " ++ m,
           str "line " ++ natChars (pre.length + 1)⟩ ::
            dynGo false (pre.length + 2) post) ∧
    (fenceParity false pre = true →
      validateDynamicContent content =
        dynGo false 1 pre ++ dynGo true (pre.length + 2) post) ∧
    (∀ b i ls, (dynGo b i ls).length ≤ ls.length) := by
  obtain ⟨m, hm⟩ := firstDynMatch_isSome_of_p4 line (p4_of_checkbox line hbox)
  have hbase : validateDynamicContent content =
      dynGo false 1 pre ++
        dynGo (fenceParity false pre) (1 + pre.length) (line :: post) := by
    rw [validateDynamicContent, hsplit, dynGo_append]
  have h1 : 1 + pre.length = pre.length + 1 := by omega
  have h2 : pre.length + 1 + 1 = pre.length + 2 := by omega
  refine ⟨fun hpar => ?_, fun hpar => ?_, dynGo_length_le⟩
  · refine ⟨m, ?_⟩
    rw [hbase, hpar]
    simp only [dynGo, hfence, Bool.false_eq_true, if_false, hm, mkDynIssue]
    rw [h1, h2]
  · rw [hbase, hpar]
    simp only [dynGo, hfence, Bool.false_eq_true, if_false, if_true]
    rw [h1, h2]

/-- Witness for C8: a one-line document containing `[ ]` produces exactly
the checkbox warning at line 1. -/
theorem C8_checkbox_detection_witness :
    ∃ m, validateDynamicContent (str "- [ ] task") =
      [⟨str "content", str "warning",
        str "Dynamic content detected: " ++ m,
        str "line " ++ natChars 1⟩] := by
  obtain ⟨m, hm⟩ :=
    (C8_checkbox_detection (str "- [ ] task") [] (str "- [ ] task") []
      (by decide) (by decide) (Or.inl (by decide))).1 rfl
  exact ⟨m, by simpa [dynGo] using hm⟩

/-- C9: the content/path validator never reports a candidate containing an
entry of the fixed exclusion list (URL scheme markers, package-manager and
command-invocation prefixes, tool-namespacing markers, control-flow
keywords): every issue it emits is a missing-path report whose path
contains, case-insensitively, no exclusion-list entry. -/
theorem C9_path_filtering (fs : Chars → Bool) (content : Chars) (iss : VIssue)
    (h : iss ∈ validateContent fs content) :
    ∃ pr, iss = mkPathIssue pr ∧
      ∀ pat ∈ skipPatterns, ¬ (pat <:+: lower pr) := by
  unfold validateContent at h
  rcases List.mem_filterMap.mp h with ⟨pr, -, hp⟩
  unfold processCand at hp
  split_ifs at hp with h1 h2 h3 h4 h5
  refine ⟨pr, (Option.some.inj hp).symm, ?_⟩
  intro pat hmem hinf
  exact h1 (List.any_eq_true.mpr ⟨pat, hmem, by simpa [hasSub] using hinf⟩)

/-- Witness for C9: a clean relative path in an inline code span that does
not resolve IS reported, and the theorem applies to it. -/
theorem C9_path_filtering_witness :
    (mkPathIssue (str "foo/bar.md") ∈
      validateContent (fun _ => false)
        (str "see " ++ [tick] ++ str "foo/bar.md" ++ [tick] ++ str " ok")) ∧
    ∃ pr, mkPathIssue (str "foo/bar.md") = mkPathIssue pr ∧
      ∀ pat ∈ skipPatterns, ¬ (pat <:+: lower pr) := by
  have hmem : mkPathIssue (str "foo/bar.md") ∈
      validateContent (fun _ => false)
        (str "see " ++ [tick] ++ str "foo/bar.md" ++ [tick] ++ str " ok") := by
    decide
  exact ⟨hmem, C9_path_filtering _ _ _ hmem⟩

end ClaudeMd
